import Mathlib

/-!
# Shallow embedding of `banking_system.py`

The accounts file is modelled as a list of lines; a line is either a record
line (`some r`) or a blank line (`none`), matching the blank-line skip in
`get_all_accounts` (`if line.strip():`).  Python floats are modelled as `ℚ`
(the spec treats balances as decimals), account numbers as `Nat` (the source
compares them only between values parsed from the same file format), and the
SHA-256 digest `hash_password` as an opaque function parameter `h`.
`log_transaction` timestamps are interactive I/O detail and are dropped from
the event record.  Operations that would raise in Python (reading the last
line of a file whose last line is blank, iterating a blank line in `login`)
return `none`.
-/

namespace Banking

/-- One account record / `Account` object: fields of `Account.__init__`. -/
structure AccountRec where
  account_no : Nat
  name : String
  password : String
  balance : ℚ
  acc_type : String
deriving Repr, DecidableEq

/-- The contents of `accounts.txt`: `none` is a blank line. -/
abbrev AccountsFile := List (Option AccountRec)

/-- One line of `transactions.txt`, minus the timestamp. -/
structure TxnEvent where
  account_no : Nat
  description : String
  amount : ℚ
deriving Repr, DecidableEq

/-- `log_transaction`: appends one event; a target account switches the
description to the `"{txn_type} to {target}"` form. -/
def log_transaction (log : List TxnEvent) (account_no : Nat) (txn_type : String)
    (amount : ℚ) (target : Option Nat) : List TxnEvent :=
  match target with
  | some t => log ++ [⟨account_no, txn_type ++ " to " ++ toString t, amount⟩]
  | none => log ++ [⟨account_no, txn_type, amount⟩]

/-- `generate_account_number`: 100001 on an empty file, else the account
number on the last line plus one (`int(...)` on a blank last line raises,
hence `none`). -/
def generate_account_number (f : AccountsFile) : Option Nat :=
  if f.isEmpty then some 100001
  else (f.getLast?).bind (fun line => line.map (fun r => r.account_no + 1))

/-- `Account.deposit`: unconditional credit plus one Deposit event. -/
def Account.deposit (acc : AccountRec) (amount : ℚ) (log : List TxnEvent) :
    AccountRec × List TxnEvent :=
  ({ acc with balance := acc.balance + amount },
   log_transaction log acc.account_no ("Deposit") amount none)

/-- `Account.withdraw`: fails (returning `false`, no mutation, no event) when
`amount > self.balance`; otherwise debits and logs one Withdrawal event. -/
def Account.withdraw (acc : AccountRec) (amount : ℚ) (log : List TxnEvent) :
    Bool × AccountRec × List TxnEvent :=
  if acc.balance < amount then (false, acc, log)
  else (true, { acc with balance := acc.balance - amount },
        log_transaction log acc.account_no ("Withdrawal") amount none)

/-- `Account.transfer`: fails when `amount > self.balance`; otherwise debits
the sender object, credits the target object, and logs the Transfer/Received
pair. -/
def Account.transfer (sender target : AccountRec) (amount : ℚ)
    (log : List TxnEvent) : Bool × AccountRec × AccountRec × List TxnEvent :=
  if sender.balance < amount then (false, sender, target, log)
  else
    (true,
     { sender with balance := sender.balance - amount },
     { target with balance := target.balance + amount },
     log_transaction
       (log_transaction log sender.account_no ("Transfer") amount
         (some target.account_no))
       target.account_no ("Received") amount (some sender.account_no))

/-- In-memory state of a `BankingSystem`: the two files plus the
`logged_in_account` session object. -/
structure BankState where
  accounts_file : AccountsFile
  txn_log : List TxnEvent
  logged_in_account : Option AccountRec
deriving Repr, DecidableEq

/-- `BankingSystem.get_all_accounts`: every non-blank line, parsed, in file
order. -/
def get_all_accounts (f : AccountsFile) : List AccountRec :=
  f.filterMap id

/-- `BankingSystem.save_accounts`: full overwrite of the file, one record
line per account, in list order. -/
def save_accounts (accounts : List AccountRec) : AccountsFile :=
  accounts.map some

/-- `BankingSystem.update_account`: re-read the file, copy the session
balance onto every record with the session's account number, write all back. -/
def update_account (f : AccountsFile) (sess : AccountRec) : AccountsFile :=
  save_accounts ((get_all_accounts f).map (fun acc =>
    if acc.account_no = sess.account_no then { acc with balance := sess.balance }
    else acc))

/-- `BankingSystem.create_account` with the interactive inputs as arguments:
appends one record line with a freshly generated account number and the
hashed password.  `none` when `generate_account_number` raises. -/
def create_account (h : String → String) (st : BankState)
    (name password acc_type : String) (deposit : ℚ) : Option BankState :=
  (generate_account_number st.accounts_file).map (fun account_no =>
    { st with
      accounts_file :=
        st.accounts_file ++ [some ⟨account_no, name, h password, deposit, acc_type⟩] })

/-- The `for line in f:` loop of `login`: first record matching both account
number and password digest; `none` when a blank line is reached (tuple
unpacking raises in Python). -/
def login_scan (acc_no : Nat) (hashed_password : String) :
    AccountsFile → Option (Option AccountRec)
  | [] => some none
  | none :: _ => none
  | some r :: rest =>
    if r.account_no = acc_no ∧ r.password = hashed_password then some (some r)
    else login_scan acc_no hashed_password rest

/-- `BankingSystem.login`: on a match, load the record as the session and
return `true`; otherwise return `false` leaving the state as it was. -/
def login (h : String → String) (st : BankState) (acc_no : Nat)
    (password : String) : Option (Bool × BankState) :=
  (login_scan acc_no (h password) st.accounts_file).map (fun found =>
    match found with
    | some r => (true, { st with logged_in_account := some r })
    | none => (false, st))

/-- `BankingSystem.deposit`: session deposit, then `update_account`. -/
def BankState.deposit (st : BankState) (amount : ℚ) : BankState :=
  match st.logged_in_account with
  | none => st
  | some sess =>
    let dep := Account.deposit sess amount st.txn_log
    { accounts_file := update_account st.accounts_file dep.1,
      txn_log := dep.2,
      logged_in_account := some dep.1 }

/-- `BankingSystem.withdraw`: `update_account` only when the session-level
withdraw succeeded. -/
def BankState.withdraw (st : BankState) (amount : ℚ) : BankState :=
  match st.logged_in_account with
  | none => st
  | some sess =>
    match Account.withdraw sess amount st.txn_log with
    | (false, _, _) => st
    | (true, sess2, log2) =>
      { accounts_file := update_account st.accounts_file sess2,
        txn_log := log2,
        logged_in_account := some sess2 }

/-- In-place mutation of the first list element with the given account
number, as `acc.balance += amount` on the object found by the lookup loop of
`BankingSystem.transfer`. -/
def creditFirst (target_no : Nat) (amount : ℚ) : List AccountRec → List AccountRec
  | [] => []
  | acc :: rest =>
    if acc.account_no = target_no then
      { acc with balance := acc.balance + amount } :: rest
    else acc :: creditFirst target_no amount rest

/-- `BankingSystem.transfer`: read all accounts, find the target by account
number, run the two-object `Account.transfer`, then `update_account` (writes
the sender's debit from the re-read file) followed by `save_accounts` of the
previously read list (whose target object was credited in place) — the
second write replaces the first wholesale. -/
def BankState.transfer (st : BankState) (target_no : Nat) (amount : ℚ) : BankState :=
  match st.logged_in_account with
  | none => st
  | some sess =>
    let accounts := get_all_accounts st.accounts_file
    match accounts.find? (fun acc => acc.account_no == target_no) with
    | none => st
    | some target =>
      match Account.transfer sess target amount st.txn_log with
      | (false, _, _, _) => st
      | (true, sess2, _target2, log2) =>
        let st1 : BankState :=
          { accounts_file := update_account st.accounts_file sess2,
            txn_log := log2,
            logged_in_account := some sess2 }
        { st1 with accounts_file := save_accounts (creditFirst target_no amount accounts) }

/-- `BankingSystem.change_password`: refuse when the old password's digest
differs from the stored one; otherwise update the session digest and copy it
onto every matching record of a fresh read, then write all back.  No event
is logged. -/
def change_password (h : String → String) (st : BankState)
    (old_pwd new_pwd : String) : BankState :=
  match st.logged_in_account with
  | none => st
  | some sess =>
    if h old_pwd ≠ sess.password then st
    else
      let sess2 := { sess with password := h new_pwd }
      let accounts := (get_all_accounts st.accounts_file).map (fun acc =>
        if acc.account_no = sess2.account_no then { acc with password := sess2.password }
        else acc)
      { st with
        accounts_file := save_accounts accounts,
        logged_in_account := some sess2 }

/-- `BankingSystem.close_account` (the confirmed branch): write back every
record except the session's, end the session. -/
def close_account (st : BankState) : BankState :=
  match st.logged_in_account with
  | none => st
  | some sess =>
    let accounts := (get_all_accounts st.accounts_file).filter
      (fun acc => acc.account_no != sess.account_no)
    { st with
      accounts_file := save_accounts accounts,
      logged_in_account := none }

end Banking

namespace Banking

/-! ## General lemmas about the store -/

/-- Reading back a full overwrite returns exactly the written records. -/
theorem get_all_save (l : List AccountRec) :
    get_all_accounts (save_accounts l) = l := by
  simp [get_all_accounts, save_accounts, List.filterMap_map]

/-- The identity function on strings, used to instantiate the opaque
credential hasher on concrete runs (it is injective). -/
def idHash : String → String := fun s => s

/-- The sequence of account numbers of the records currently in the store. -/
def storeIds (s : BankState) : List Nat :=
  (get_all_accounts s.accounts_file).map (fun acc => acc.account_no)

/-- The persisted balance of the first record with the given account number. -/
def storeBalance (s : BankState) (no : Nat) : Option ℚ :=
  ((get_all_accounts s.accounts_file).find?
    (fun acc => acc.account_no == no)).map (fun acc => acc.balance)

/-! ## C7: replace_all of list_all is a no-op -/

/-- C7: for every store state, writing back the full record set just read
(`save_accounts (get_all_accounts f)`) is a no-op: a subsequent
`get_all_accounts` returns the same sequence of records with the same field
values. -/
theorem C7_replace_all_roundtrip (f : AccountsFile) :
    get_all_accounts (save_accounts (get_all_accounts f)) = get_all_accounts f :=
  get_all_save (get_all_accounts f)

/-! ## C9: withdraw has no positivity check -/

/-- C9: for every amount at most the current balance — including every
negative amount — `withdraw` succeeds, sets the balance to the old balance
minus the amount, appends exactly one Withdrawal event, and commits the new
balance to the store. -/
theorem C9_withdraw_no_positivity_check (st : BankState) (acc : AccountRec)
    (amount : ℚ) (hl : st.logged_in_account = some acc)
    (hle : amount ≤ acc.balance) :
    Account.withdraw acc amount st.txn_log =
      (true, { acc with balance := acc.balance - amount },
       st.txn_log ++ [⟨acc.account_no, "Withdrawal", amount⟩])
    ∧ st.withdraw amount =
      { accounts_file :=
          update_account st.accounts_file { acc with balance := acc.balance - amount },
        txn_log := st.txn_log ++ [⟨acc.account_no, "Withdrawal", amount⟩],
        logged_in_account := some { acc with balance := acc.balance - amount } } := by
  have hnot : ¬ acc.balance < amount := not_lt.mpr hle
  constructor
  · simp [Account.withdraw, log_transaction, hnot]
  · simp [BankState.withdraw, hl, Account.withdraw, log_transaction, hnot]

/-- Witness for C9 at a negative amount: with balance 0, `withdraw (-5)`
succeeds and raises the balance to 5. -/
theorem C9_withdraw_no_positivity_check_witness :
    Account.withdraw ⟨100002, "bob", "e", 0, "Savings"⟩ (-5) [] =
      (true, { (⟨100002, "bob", "e", 0, "Savings"⟩ : AccountRec) with balance := 0 - (-5) },
       [] ++ [⟨100002, "Withdrawal", -5⟩])
    ∧ BankState.withdraw ⟨[some ⟨100002, "bob", "e", 0, "Savings"⟩], [], some ⟨100002, "bob", "e", 0, "Savings"⟩⟩ (-5) =
      { accounts_file :=
          update_account [some ⟨100002, "bob", "e", 0, "Savings"⟩]
            { (⟨100002, "bob", "e", 0, "Savings"⟩ : AccountRec) with balance := 0 - (-5) },
        txn_log := [] ++ [⟨100002, "Withdrawal", -5⟩],
        logged_in_account :=
          some { (⟨100002, "bob", "e", 0, "Savings"⟩ : AccountRec) with balance := 0 - (-5) } } :=
  C9_withdraw_no_positivity_check
    ⟨[some ⟨100002, "bob", "e", 0, "Savings"⟩], [], some ⟨100002, "bob", "e", 0, "Savings"⟩⟩
    ⟨100002, "bob", "e", 0, "Savings"⟩ (-5) rfl (by norm_num)

end Banking

namespace Banking

/-! ## C3: failed operations commit nothing -/

/-- C3: an overdraft withdraw fails (`Account.withdraw` returns `false`) and
the system state — session balance, store file, transaction log — is exactly
unchanged; likewise a transfer whose target is missing, a transfer with
insufficient funds, and a password change with a wrong old password each
leave the whole state unchanged and append no event. -/
theorem C3_failed_ops_commit_nothing (st : BankState) (sess : AccountRec)
    (a aAny : ℚ) (tnoM tno2 : Nat) (h : String → String) (o n : String)
    (hl : st.logged_in_account = some sess)
    (hins : sess.balance < a)
    (hmiss : (get_all_accounts st.accounts_file).find?
      (fun acc => acc.account_no == tnoM) = none)
    (hpw : h o ≠ sess.password) :
    (Account.withdraw sess a st.txn_log).1 = false
    ∧ st.withdraw a = st
    ∧ st.transfer tnoM aAny = st
    ∧ st.transfer tno2 a = st
    ∧ change_password h st o n = st := by
  refine ⟨?_, ?_, ?_, ?_, ?_⟩
  · simp [Account.withdraw, hins]
  · simp [BankState.withdraw, hl, Account.withdraw, hins]
  · simp [BankState.transfer, hl, hmiss]
  · rcases hfind : (get_all_accounts st.accounts_file).find?
        (fun acc => acc.account_no == tno2) with _ | target
    · simp [BankState.transfer, hl, hfind]
    · simp [BankState.transfer, hl, hfind, Account.transfer, hins]
  · simp [change_password, hl, hpw]

/-- Witness for C3: balance 100, overdraft amount 200, missing target 999,
wrong old password. -/
theorem C3_failed_ops_commit_nothing_witness :
    (Account.withdraw ⟨100001, "alice", "d", 100, "Savings"⟩ 200 []).1 = false
    ∧ BankState.withdraw
        ⟨[some ⟨100001, "alice", "d", 100, "Savings"⟩], [], some ⟨100001, "alice", "d", 100, "Savings"⟩⟩ 200 =
        ⟨[some ⟨100001, "alice", "d", 100, "Savings"⟩], [], some ⟨100001, "alice", "d", 100, "Savings"⟩⟩
    ∧ BankState.transfer
        ⟨[some ⟨100001, "alice", "d", 100, "Savings"⟩], [], some ⟨100001, "alice", "d", 100, "Savings"⟩⟩ 999 7 =
        ⟨[some ⟨100001, "alice", "d", 100, "Savings"⟩], [], some ⟨100001, "alice", "d", 100, "Savings"⟩⟩
    ∧ BankState.transfer
        ⟨[some ⟨100001, "alice", "d", 100, "Savings"⟩], [], some ⟨100001, "alice", "d", 100, "Savings"⟩⟩ 100001 200 =
        ⟨[some ⟨100001, "alice", "d", 100, "Savings"⟩], [], some ⟨100001, "alice", "d", 100, "Savings"⟩⟩
    ∧ change_password idHash
        ⟨[some ⟨100001, "alice", "d", 100, "Savings"⟩], [], some ⟨100001, "alice", "d", 100, "Savings"⟩⟩ "x" "y" =
        ⟨[some ⟨100001, "alice", "d", 100, "Savings"⟩], [], some ⟨100001, "alice", "d", 100, "Savings"⟩⟩ :=
  C3_failed_ops_commit_nothing
    ⟨[some ⟨100001, "alice", "d", 100, "Savings"⟩], [], some ⟨100001, "alice", "d", 100, "Savings"⟩⟩
    ⟨100001, "alice", "d", 100, "Savings"⟩ 200 7 999 100001 idHash "x" "y"
    rfl (by norm_num) (by norm_num [get_all_accounts]) (by simp [idHash])

/-! ## C1: the transfer bug — the sender's debit never reaches the store -/

/-- C1 fails on the code: on the two-account store
`[100001 ↦ 100, 100002 ↦ 0]`, a successful `transfer 100002 50` leaves the
persisted balances at `[100, 50]`: the sender's persisted balance is still
100 (the debit written by `update_account` is overwritten by the following
`save_accounts` of the stale pre-debit list), so the summed store balance
grows from 100 to 150 while the in-memory session balance drops to 50. -/
theorem C1_transfer_debit_lost :
    ((get_all_accounts
        (⟨[some ⟨100001, "alice", "d", 100, "Savings"⟩,
           some ⟨100002, "bob", "e", 0, "Savings"⟩], [],
          some ⟨100001, "alice", "d", 100, "Savings"⟩⟩ : BankState).accounts_file).map
      (fun acc => acc.balance)).sum = 100
    ∧ ((get_all_accounts
        ((⟨[some ⟨100001, "alice", "d", 100, "Savings"⟩,
            some ⟨100002, "bob", "e", 0, "Savings"⟩], [],
           some ⟨100001, "alice", "d", 100, "Savings"⟩⟩ : BankState).transfer
          100002 50).accounts_file).map (fun acc => acc.balance)) = [100, 50]
    ∧ ((⟨[some ⟨100001, "alice", "d", 100, "Savings"⟩,
          some ⟨100002, "bob", "e", 0, "Savings"⟩], [],
         some ⟨100001, "alice", "d", 100, "Savings"⟩⟩ : BankState).transfer
        100002 50).logged_in_account =
      some ⟨100001, "alice", "d", 50, "Savings"⟩
    ∧ ((100 : ℚ) + 50 ≠ 100 + 0) := by
  refine ⟨by norm_num [get_all_accounts, List.filterMap_cons], ?_, ?_, by norm_num⟩
  · norm_num [BankState.transfer, get_all_accounts, Account.transfer,
      save_accounts, creditFirst, update_account, List.filterMap_cons]
  · norm_num [BankState.transfer, get_all_accounts, Account.transfer,
      save_accounts, creditFirst, update_account, List.filterMap_cons]

end Banking

namespace Banking

/-! ## C2: non-negative balances under sequences of operations -/

/-- One logged-in menu operation of the Ledger Engine. -/
inductive LedgerOp where
  | depositOp (amount : ℚ)
  | withdrawOp (amount : ℚ)
  | transferOp (target_no : Nat) (amount : ℚ)
  | passwordOp (old_pwd new_pwd : String)
deriving Repr, DecidableEq

/-- Dispatch of one menu operation. -/
def runOp (h : String → String) (st : BankState) : LedgerOp → BankState
  | LedgerOp.depositOp a => st.deposit a
  | LedgerOp.withdrawOp a => st.withdraw a
  | LedgerOp.transferOp t a => st.transfer t a
  | LedgerOp.passwordOp o n => change_password h st o n

/-- A sequence of menu operations, run left to right. -/
def runOps (h : String → String) (st : BankState) : List LedgerOp → BankState
  | [] => st
  | op :: rest => runOps h (runOp h st op) rest

/-- The operation's amount is positive (vacuous for a password change) —
the precondition the spec attaches to each money-moving operation. -/
def posAmounts : LedgerOp → Prop
  | LedgerOp.depositOp a => 0 < a
  | LedgerOp.withdrawOp a => 0 < a
  | LedgerOp.transferOp _ a => 0 < a
  | LedgerOp.passwordOp _ _ => True

/-- Every persisted record and the session copy carry a non-negative
balance. -/
def NonNegBalances (s : BankState) : Prop :=
  (∀ r ∈ get_all_accounts s.accounts_file, 0 ≤ r.balance)
  ∧ (∀ a, s.logged_in_account = some a → 0 ≤ a.balance)

theorem nonneg_update_account (f : AccountsFile) (x : AccountRec)
    (hf : ∀ r ∈ get_all_accounts f, 0 ≤ r.balance) (hx : 0 ≤ x.balance) :
    ∀ r ∈ get_all_accounts (update_account f x), 0 ≤ r.balance := by
  intro r hr
  rw [update_account, get_all_save] at hr
  rcases List.mem_map.mp hr with ⟨r0, hr0, rfl⟩
  by_cases hc : r0.account_no = x.account_no <;> simp [hc]
  · exact hx
  · exact hf r0 hr0

theorem mem_creditFirst (t : Nat) (a : ℚ) :
    ∀ (l : List AccountRec) (r : AccountRec), r ∈ creditFirst t a l →
      r ∈ l ∨ ∃ r0 ∈ l, r = { r0 with balance := r0.balance + a }
  | [], r, hr => by simp [creditFirst] at hr
  | acc :: rest, r, hr => by
    rw [creditFirst] at hr
    by_cases hc : acc.account_no = t
    · rw [if_pos hc] at hr
      rcases List.mem_cons.mp hr with hr | hr
      · exact Or.inr ⟨acc, List.mem_cons_self acc rest, hr⟩
      · exact Or.inl (List.mem_cons_of_mem acc hr)
    · rw [if_neg hc] at hr
      rcases List.mem_cons.mp hr with hr | hr
      · exact Or.inl (hr ▸ List.mem_cons_self acc rest)
      · rcases mem_creditFirst t a rest r hr with hr | ⟨r0, hr0, hre⟩
        · exact Or.inl (List.mem_cons_of_mem acc hr)
        · exact Or.inr ⟨r0, List.mem_cons_of_mem acc hr0, hre⟩

theorem runOp_nonneg (h : String → String) (op : LedgerOp) (s : BankState)
    (hp : posAmounts op) (hs : NonNegBalances s) : NonNegBalances (runOp h s op) := by
  obtain ⟨hstore, hsess⟩ := hs
  rcases hl : s.logged_in_account with _ | sess
  · cases op <;>
      simp [runOp, BankState.deposit, BankState.withdraw, BankState.transfer,
        change_password, hl] <;> exact ⟨hstore, hsess⟩
  have hsb : 0 ≤ sess.balance := hsess sess hl
  cases op with
  | depositOp a =>
    have ha : (0 : ℚ) < a := hp
    have h2 : 0 ≤ sess.balance + a := by linarith
    refine ⟨?_, ?_⟩
    · intro r hr
      simp only [runOp, BankState.deposit, hl, Account.deposit] at hr
      exact nonneg_update_account _ _ hstore h2 r hr
    · intro x hx
      simp only [runOp, BankState.deposit, hl, Account.deposit] at hx
      cases hx
      exact h2
  | withdrawOp a =>
    by_cases hc : sess.balance < a
    · simp only [runOp, BankState.withdraw, hl, Account.withdraw, if_pos hc]
      exact ⟨hstore, hsess⟩
    · have h2 : 0 ≤ sess.balance - a := by
        have := not_lt.mp hc; linarith
      refine ⟨?_, ?_⟩
      · intro r hr
        simp only [runOp, BankState.withdraw, hl, Account.withdraw, if_neg hc] at hr
        exact nonneg_update_account _ _ hstore h2 r hr
      · intro x hx
        simp only [runOp, BankState.withdraw, hl, Account.withdraw, if_neg hc] at hx
        cases hx
        exact h2
  | transferOp t a =>
    have ha : (0 : ℚ) < a := hp
    rcases hfind : (get_all_accounts s.accounts_file).find?
        (fun acc => acc.account_no == t) with _ | target
    · simp only [runOp, BankState.transfer, hl, hfind]
      exact ⟨hstore, hsess⟩
    · by_cases hc : sess.balance < a
      · simp only [runOp, BankState.transfer, hl, hfind, Account.transfer, if_pos hc]
        exact ⟨hstore, hsess⟩
      · have h2 : 0 ≤ sess.balance - a := by
          have := not_lt.mp hc; linarith
        refine ⟨?_, ?_⟩
        · intro r hr
          simp only [runOp, BankState.transfer, hl, hfind, Account.transfer,
            if_neg hc, get_all_save] at hr
          rcases mem_creditFirst t a _ r hr with hr | ⟨r0, hr0, rfl⟩
          · exact hstore r hr
          · have := hstore r0 hr0
            simp only []
            linarith
        · intro x hx
          simp only [runOp, BankState.transfer, hl, hfind, Account.transfer,
            if_neg hc] at hx
          cases hx
          exact h2
  | passwordOp o n =>
    by_cases hc : h o ≠ sess.password
    · simp only [runOp, change_password, hl, if_pos hc]
      exact ⟨hstore, hsess⟩
    · refine ⟨?_, ?_⟩
      · intro r hr
        simp only [runOp, change_password, hl, if_neg hc, get_all_save] at hr
        rcases List.mem_map.mp hr with ⟨r0, hr0, rfl⟩
        have := hstore r0 hr0
        by_cases hc2 : r0.account_no = sess.account_no <;> simp [hc2] <;> exact this
      · intro x hx
        simp only [runOp, change_password, hl, if_neg hc] at hx
        cases hx
        exact hsb

/-- C2 amended: after every committed operation whose amount is positive
(the spec's stated precondition on deposit/withdraw/transfer), every account
record's balance stays non-negative, for every sequence of deposit,
withdraw, transfer and password-change operations starting from a state
whose stored and session balances are non-negative.  (The unamended claim —
*every* sequence of operations — fails: the code never validates amounts,
and a negative deposit commits a negative balance.) -/
theorem C2_amended_balances_nonneg (h : String → String) (st : BankState)
    (ops : List LedgerOp) (hnn : NonNegBalances st)
    (hpos : ∀ op ∈ ops, posAmounts op) :
    NonNegBalances (runOps h st ops) := by
  induction ops generalizing st with
  | nil => exact hnn
  | cons op rest ih =>
    exact ih (runOp h st op)
      (runOp_nonneg h op st (hpos op (List.mem_cons_self op rest)) hnn)
      (fun o ho => hpos o (List.mem_cons_of_mem op ho))

/-- Witness for the amended C2: balance 0, deposit 10 then withdraw 5. -/
theorem C2_amended_balances_nonneg_witness :
    NonNegBalances (runOps idHash
      ⟨[some ⟨100002, "bob", "e", 0, "Savings"⟩], [], some ⟨100002, "bob", "e", 0, "Savings"⟩⟩
      [LedgerOp.depositOp 10, LedgerOp.withdrawOp 5]) :=
  C2_amended_balances_nonneg idHash
    ⟨[some ⟨100002, "bob", "e", 0, "Savings"⟩], [], some ⟨100002, "bob", "e", 0, "Savings"⟩⟩
    [LedgerOp.depositOp 10, LedgerOp.withdrawOp 5]
    (by
      constructor
      · intro r hr
        simp [get_all_accounts, List.filterMap_cons] at hr
        simp [hr]
      · intro a ha
        simp at ha
        simp [← ha])
    (by
      intro op hop
      simp at hop
      rcases hop with rfl | rfl <;> norm_num [posAmounts])

/-- C2 as stated is false: a committed deposit of −50 on a store whose only
balance is 0 leaves a persisted balance of −50. -/
theorem C2_negative_deposit_counterexample :
    ((get_all_accounts
        ((⟨[some ⟨100002, "bob", "e", 0, "Savings"⟩], [],
           some ⟨100002, "bob", "e", 0, "Savings"⟩⟩ : BankState)).accounts_file).map
      (fun acc => acc.balance)) = [0]
    ∧ ((get_all_accounts
        (runOps idHash
          ⟨[some ⟨100002, "bob", "e", 0, "Savings"⟩], [],
           some ⟨100002, "bob", "e", 0, "Savings"⟩⟩
          [LedgerOp.depositOp (-50)]).accounts_file).map
      (fun acc => acc.balance)) = [-50]
    ∧ ((-50 : ℚ) < 0) := by
  refine ⟨by norm_num [get_all_accounts, List.filterMap_cons], ?_, by norm_num⟩
  norm_num [runOps, runOp, BankState.deposit, Account.deposit, log_transaction,
    update_account, get_all_accounts, save_accounts, List.filterMap_cons]

end Banking


namespace Banking

/-! ## C6: replay of deposit/withdraw sequences -/

/-- A deposit or a withdraw, for replays over a logged-in session. -/
inductive CashOp where
  | dep (amount : ℚ)
  | wd (amount : ℚ)
deriving Repr, DecidableEq

/-- Run a sequence of deposits and withdrawals through the Ledger Engine. -/
def runCash (st : BankState) : List CashOp → BankState
  | [] => st
  | CashOp.dep a :: rest => runCash (st.deposit a) rest
  | CashOp.wd a :: rest => runCash (st.withdraw a) rest

/-- Sum of the deposited amounts. -/
def sumDeposits : List CashOp → ℚ
  | [] => 0
  | CashOp.dep a :: rest => a + sumDeposits rest
  | CashOp.wd _ :: rest => sumDeposits rest

/-- Sum of the withdrawn amounts. -/
def sumWithdrawals : List CashOp → ℚ
  | [] => 0
  | CashOp.dep _ :: rest => sumWithdrawals rest
  | CashOp.wd a :: rest => a + sumWithdrawals rest

/-- Every withdraw in the sequence succeeds when replayed from the given
starting balance (deposits always succeed). -/
def cashSucceeds (b : ℚ) : List CashOp → Prop
  | [] => True
  | CashOp.dep a :: rest => cashSucceeds (b + a) rest
  | CashOp.wd a :: rest => a ≤ b ∧ cashSucceeds (b - a) rest

/-- `update_account` rewrites the balance of the first record carrying the
session's account number and touches nothing else the lookup can see. -/
theorem find?_update_account (f : AccountsFile) (x : AccountRec) (no : Nat)
    (hno : x.account_no = no) :
    (get_all_accounts (update_account f x)).find?
        (fun acc => acc.account_no == no) =
      ((get_all_accounts f).find? (fun acc => acc.account_no == no)).map
        (fun acc => { acc with balance := x.balance }) := by
  subst hno
  rw [update_account, get_all_save, List.find?_map]
  have hp : ((fun acc : AccountRec => acc.account_no == x.account_no) ∘
      (fun acc => if acc.account_no = x.account_no then
        { acc with balance := x.balance } else acc)) =
      (fun acc : AccountRec => acc.account_no == x.account_no) := by
    funext acc
    by_cases hc : acc.account_no = x.account_no <;> simp [hc]
  rw [hp]
  rcases hfind : (get_all_accounts f).find?
      (fun acc => acc.account_no == x.account_no) with _ | r
  · simp [hfind]
  · have hr : r.account_no = x.account_no := by
      simpa using List.find?_some hfind
    simp [hfind, hr]

/-- C6: over every sequence of successful deposits and withdrawals on a
logged-in account whose record is in the store with the session's balance,
the final session balance equals the initial balance plus the sum of
deposits minus the sum of withdrawals, and the balance read back fresh from
the store equals that same value. -/
theorem C6_replay_balance (ops : List CashOp) (st : BankState)
    (sess : AccountRec) (hl : st.logged_in_account = some sess)
    (hsync : storeBalance st sess.account_no = some sess.balance)
    (hsucc : cashSucceeds sess.balance ops) :
    ∃ sess2, (runCash st ops).logged_in_account = some sess2
      ∧ sess2.account_no = sess.account_no
      ∧ sess2.balance = sess.balance + sumDeposits ops - sumWithdrawals ops
      ∧ storeBalance (runCash st ops) sess.account_no = some sess2.balance := by
  induction ops generalizing st sess with
  | nil =>
    refine ⟨sess, hl, rfl, by simp [sumDeposits, sumWithdrawals], ?_⟩
    simpa [runCash] using hsync
  | cons op rest ih =>
    rcases hfind : (get_all_accounts st.accounts_file).find?
        (fun acc => acc.account_no == sess.account_no) with _ | r0
    · rw [storeBalance, hfind] at hsync
      simp at hsync
    cases op with
    | dep a =>
      have hstep : st.deposit a =
          { accounts_file :=
              update_account st.accounts_file { sess with balance := sess.balance + a },
            txn_log := st.txn_log ++ [⟨sess.account_no, "Deposit", a⟩],
            logged_in_account := some { sess with balance := sess.balance + a } } := by
        simp [BankState.deposit, hl, Account.deposit, log_transaction]
      have hsync2 : storeBalance (st.deposit a)
          ({ sess with balance := sess.balance + a } : AccountRec).account_no =
          some ({ sess with balance := sess.balance + a } : AccountRec).balance := by
        rw [hstep]
        simp only [storeBalance]
        rw [find?_update_account st.accounts_file
          { sess with balance := sess.balance + a } sess.account_no rfl, hfind]
        simp
      have hsucc2 : cashSucceeds
          ({ sess with balance := sess.balance + a } : AccountRec).balance rest := by
        simpa [cashSucceeds] using hsucc
      obtain ⟨sess2, h1, h2, h3, h4⟩ := ih (st.deposit a)
        { sess with balance := sess.balance + a } (by rw [hstep]) hsync2 hsucc2
      refine ⟨sess2, by simpa [runCash] using h1, by simpa using h2, ?_,
        by simpa [runCash] using h4⟩
      simp only [sumDeposits, sumWithdrawals] at h3 ⊢
      rw [h3]
      ring
    | wd a =>
      obtain ⟨hle, hsucc2⟩ := hsucc
      have hnot : ¬ sess.balance < a := not_lt.mpr hle
      have hstep : st.withdraw a =
          { accounts_file :=
              update_account st.accounts_file { sess with balance := sess.balance - a },
            txn_log := st.txn_log ++ [⟨sess.account_no, "Withdrawal", a⟩],
            logged_in_account := some { sess with balance := sess.balance - a } } := by
        simp [BankState.withdraw, hl, Account.withdraw, hnot, log_transaction]
      have hsync2 : storeBalance (st.withdraw a)
          ({ sess with balance := sess.balance - a } : AccountRec).account_no =
          some ({ sess with balance := sess.balance - a } : AccountRec).balance := by
        rw [hstep]
        simp only [storeBalance]
        rw [find?_update_account st.accounts_file
          { sess with balance := sess.balance - a } sess.account_no rfl, hfind]
        simp
      have hsucc3 : cashSucceeds
          ({ sess with balance := sess.balance - a } : AccountRec).balance rest := by
        simpa [cashSucceeds] using hsucc2
      obtain ⟨sess2, h1, h2, h3, h4⟩ := ih (st.withdraw a)
        { sess with balance := sess.balance - a } (by rw [hstep]) hsync2 hsucc3
      refine ⟨sess2, by simpa [runCash] using h1, by simpa using h2, ?_,
        by simpa [runCash] using h4⟩
      simp only [sumDeposits, sumWithdrawals] at h3 ⊢
      rw [h3]
      ring

/-- Witness for C6: balance 100, deposit 40 then withdraw 30 ends at 110 in
both the session and the store. -/
theorem C6_replay_balance_witness :
    ∃ sess2, (runCash
        ⟨[some ⟨100001, "alice", "d", 100, "Savings"⟩], [],
         some ⟨100001, "alice", "d", 100, "Savings"⟩⟩
        [CashOp.dep 40, CashOp.wd 30]).logged_in_account = some sess2
      ∧ sess2.account_no = (⟨100001, "alice", "d", 100, "Savings"⟩ : AccountRec).account_no
      ∧ sess2.balance = (⟨100001, "alice", "d", 100, "Savings"⟩ : AccountRec).balance
          + sumDeposits [CashOp.dep 40, CashOp.wd 30]
          - sumWithdrawals [CashOp.dep 40, CashOp.wd 30]
      ∧ storeBalance (runCash
          ⟨[some ⟨100001, "alice", "d", 100, "Savings"⟩], [],
           some ⟨100001, "alice", "d", 100, "Savings"⟩⟩
          [CashOp.dep 40, CashOp.wd 30])
          (⟨100001, "alice", "d", 100, "Savings"⟩ : AccountRec).account_no = some sess2.balance :=
  C6_replay_balance [CashOp.dep 40, CashOp.wd 30]
    ⟨[some ⟨100001, "alice", "d", 100, "Savings"⟩], [],
     some ⟨100001, "alice", "d", 100, "Savings"⟩⟩
    ⟨100001, "alice", "d", 100, "Savings"⟩ rfl
    (by norm_num [storeBalance, get_all_accounts, List.filterMap_cons, List.find?_cons])
    (by norm_num [cashSucceeds])

end Banking

namespace Banking

/-! ## C4/C5: reachable store states and id allocation -/

/-- States reachable from a fresh installation (both files empty, nobody
logged in) through the system's operations.  `logout` leaves the state
unchanged in the source (it only exits the menu loop), so it needs no
constructor. -/
inductive Reachable : BankState → Prop where
  | init : Reachable ⟨[], [], none⟩
  | create_step (h : String → String) (name pw ty : String) (dep : ℚ)
      (s s' : BankState) : Reachable s →
      create_account h s name pw ty dep = some s' → Reachable s'
  | login_step (h : String → String) (no : Nat) (pw : String) (b : Bool)
      (s s' : BankState) : Reachable s →
      login h s no pw = some (b, s') → Reachable s'
  | ledger_step (h : String → String) (op : LedgerOp) (s : BankState) :
      Reachable s → Reachable (runOp h s op)
  | close_step (s : BankState) : Reachable s → Reachable (close_account s)

/-- The store-side invariant: the accounts file has no blank lines and its
account numbers appear in strictly increasing file order. -/
def StoreOk (s : BankState) : Prop :=
  ∃ recs : List AccountRec, s.accounts_file = save_accounts recs
    ∧ (recs.map (fun r => r.account_no)).Pairwise (· < ·)

/-- What the allocator computes on a blank-free file: the last record's
account number plus one, or 100001 on an empty file. -/
def lastThenInc (recs : List AccountRec) : Nat :=
  match recs.getLast? with
  | none => 100001
  | some r => r.account_no + 1

theorem generate_save (recs : List AccountRec) :
    generate_account_number (save_accounts recs) = some (lastThenInc recs) := by
  cases recs with
  | nil => rfl
  | cons r rest =>
    have h1 : (save_accounts (r :: rest)).getLast? = (r :: rest).getLast?.map some := by
      rw [save_accounts, List.getLast?_map]
    rcases hg : (r :: rest).getLast? with _ | rlast
    · exact absurd (List.getLast?_eq_none_iff.mp hg) (by simp)
    · rw [generate_account_number, if_neg (by simp [save_accounts]), h1, hg]
      simp [lastThenInc, hg]

theorem le_getLast?_pairwise :
    ∀ (l : List Nat), l.Pairwise (· < ·) → ∀ m, l.getLast? = some m →
      ∀ i ∈ l, i ≤ m
  | [], _, m, hm, i, hi => by simp at hi
  | [a], _, m, hm, i, hi => by
    simp [List.getLast?_singleton] at hm
    simp at hi
    omega
  | a :: b :: t, hp, m, hm, i, hi => by
    rw [List.getLast?_cons_cons] at hm
    rcases List.mem_cons.mp hi with rfl | hi
    · have hmem : m ∈ b :: t :=
        List.mem_of_mem_getLast? (by simp [hm])
      have := (List.pairwise_cons.mp hp).1 m hmem
      omega
    · exact le_getLast?_pairwise (b :: t) (List.pairwise_cons.mp hp).2 m hm i hi

theorem foldr_max_getLast? :
    ∀ (l : List Nat), l.Pairwise (· < ·) → ∀ m, l.getLast? = some m →
      l.foldr max 0 = m
  | [], _, m, hm => by simp at hm
  | [a], _, m, hm => by
    simp [List.getLast?_singleton] at hm
    simp [hm]
  | a :: b :: t, hp, m, hm => by
    rw [List.getLast?_cons_cons] at hm
    have hrec := foldr_max_getLast? (b :: t) (List.pairwise_cons.mp hp).2 m hm
    have hle : a ≤ m := by
      have hmem : m ∈ b :: t :=
        List.mem_of_mem_getLast? (by simp [hm])
      have := (List.pairwise_cons.mp hp).1 m hmem
      omega
    simp only [List.foldr_cons] at hrec ⊢
    rw [hrec]
    omega

theorem le_foldr_max : ∀ (l : List Nat), ∀ i ∈ l, i ≤ l.foldr max 0
  | [], i, hi => by simp at hi
  | a :: t, i, hi => by
    rcases List.mem_cons.mp hi with rfl | hi
    · simp only [List.foldr_cons]
      omega
    · have := le_foldr_max t i hi
      simp only [List.foldr_cons]
      omega

theorem ids_creditFirst (t : Nat) (a : ℚ) :
    ∀ l : List AccountRec,
      (creditFirst t a l).map (fun r => r.account_no) =
        l.map (fun r => r.account_no)
  | [] => rfl
  | acc :: rest => by
    rw [creditFirst]
    by_cases hc : acc.account_no = t
    · simp [hc]
    · simp [hc, ids_creditFirst t a rest]

theorem ids_map_preserved (recs : List AccountRec) (g : AccountRec → AccountRec)
    (hg : ∀ r, (g r).account_no = r.account_no) :
    (recs.map g).map (fun r => r.account_no) = recs.map (fun r => r.account_no) := by
  rw [List.map_map]
  exact List.map_congr_left (fun r _ => hg r)

/-- `login` never touches the accounts file. -/
theorem login_file_unchanged (h : String → String) (st : BankState)
    (no : Nat) (pw : String) (b : Bool) (s' : BankState)
    (hlg : login h st no pw = some (b, s')) :
    s'.accounts_file = st.accounts_file := by
  rcases hscan : login_scan no (h pw) st.accounts_file with _ | found
  · rw [login, hscan] at hlg
    simp at hlg
  · rw [login, hscan] at hlg
    cases found with
    | none =>
      simp at hlg
      rw [← hlg.2]
    | some r =>
      simp at hlg
      rw [← hlg.2]

end Banking

namespace Banking

theorem storeOk_runOp (h : String → String) (op : LedgerOp) (s : BankState)
    (hs : StoreOk s) : StoreOk (runOp h s op) := by
  obtain ⟨recs, hfile, hpw⟩ := hs
  have hget : get_all_accounts s.accounts_file = recs := by
    rw [hfile, get_all_save]
  rcases hl : s.logged_in_account with _ | sess
  · cases op <;>
      simp only [runOp, BankState.deposit, BankState.withdraw, BankState.transfer,
        change_password, hl] <;>
      exact ⟨recs, hfile, hpw⟩
  cases op with
  | depositOp a =>
    refine ⟨recs.map (fun acc =>
      if acc.account_no = sess.account_no then
        { acc with balance := sess.balance + a } else acc), ?_, ?_⟩
    · simp only [runOp, BankState.deposit, hl, Account.deposit,
        update_account, hget]
    · rw [ids_map_preserved recs _ (fun r => by
        by_cases hc : r.account_no = sess.account_no <;> simp [hc])]
      exact hpw
  | withdrawOp a =>
    by_cases hc : sess.balance < a
    · simp only [runOp, BankState.withdraw, hl, Account.withdraw, if_pos hc]
      exact ⟨recs, hfile, hpw⟩
    · refine ⟨recs.map (fun acc =>
        if acc.account_no = sess.account_no then
          { acc with balance := sess.balance - a } else acc), ?_, ?_⟩
      · simp only [runOp, BankState.withdraw, hl, Account.withdraw, if_neg hc,
          update_account, hget]
      · rw [ids_map_preserved recs _ (fun r => by
          by_cases hc2 : r.account_no = sess.account_no <;> simp [hc2])]
        exact hpw
  | transferOp t a =>
    rcases hfind : (get_all_accounts s.accounts_file).find?
        (fun acc => acc.account_no == t) with _ | target
    · simp only [runOp, BankState.transfer, hl, hfind]
      exact ⟨recs, hfile, hpw⟩
    · by_cases hc : sess.balance < a
      · simp only [runOp, BankState.transfer, hl, hfind, Account.transfer, if_pos hc]
        exact ⟨recs, hfile, hpw⟩
      · rw [hget] at hfind
        refine ⟨creditFirst t a recs, ?_, ?_⟩
        · simp only [runOp, BankState.transfer, hl, hget, hfind, Account.transfer,
            if_neg hc]
        · rw [ids_creditFirst t a recs]
          exact hpw
  | passwordOp o n =>
    by_cases hc : h o ≠ sess.password
    · simp only [runOp, change_password, hl, if_pos hc]
      exact ⟨recs, hfile, hpw⟩
    · refine ⟨recs.map (fun acc =>
        if acc.account_no = sess.account_no then
          { acc with password := h n } else acc), ?_, ?_⟩
      · simp only [runOp, change_password, hl, if_neg hc, hget]
      · rw [ids_map_preserved recs _ (fun r => by
          by_cases hc2 : r.account_no = sess.account_no <;> simp [hc2])]
        exact hpw

theorem storeOk_close (s : BankState) (hs : StoreOk s) :
    StoreOk (close_account s) := by
  obtain ⟨recs, hfile, hpw⟩ := hs
  have hget : get_all_accounts s.accounts_file = recs := by
    rw [hfile, get_all_save]
  rcases hl : s.logged_in_account with _ | sess
  · simp only [close_account, hl]
    exact ⟨recs, hfile, hpw⟩
  · refine ⟨recs.filter (fun acc => acc.account_no != sess.account_no), ?_, ?_⟩
    · simp only [close_account, hl, hget]
    · exact List.Pairwise.sublist
        (List.Sublist.map _ (List.filter_sublist recs)) hpw

theorem storeOk_create (h : String → String) (name pw ty : String) (dep : ℚ)
    (s s' : BankState) (hs : StoreOk s)
    (hc : create_account h s name pw ty dep = some s') : StoreOk s' := by
  obtain ⟨recs, hfile, hpw⟩ := hs
  have hgen : generate_account_number s.accounts_file = some (lastThenInc recs) := by
    rw [hfile, generate_save]
  rw [create_account, hgen] at hc
  simp only [Option.map_some', Option.some.injEq] at hc
  refine ⟨recs ++ [⟨lastThenInc recs, name, h pw, dep, ty⟩], ?_, ?_⟩
  · rw [← hc, hfile]
    simp [save_accounts, List.map_append]
  · rw [List.map_append, List.pairwise_append]
    refine ⟨hpw, by simp, ?_⟩
    intro i hi b hb
    simp only [List.map_cons, List.map_nil, List.mem_singleton] at hb
    subst hb
    rcases hrecs : recs.map (fun r => r.account_no) with _ | _
    · rw [hrecs] at hi
      simp at hi
    · have hne : recs ≠ [] := by
        intro hx
        rw [hx] at hrecs
        simp at hrecs
      rcases hlast : recs.getLast? with _ | rlast
      · exact absurd (List.getLast?_eq_none_iff.mp hlast) hne
      · have hidslast : (recs.map (fun r => r.account_no)).getLast? =
            some rlast.account_no := by
          rw [List.getLast?_map, hlast]
          rfl
        have hle := le_getLast?_pairwise _ hpw rlast.account_no hidslast i
          (hrecs ▸ hi)
        have : lastThenInc recs = rlast.account_no + 1 := by
          simp [lastThenInc, hlast]
        omega

theorem reachable_storeOk (s : BankState) (hre : Reachable s) : StoreOk s := by
  induction hre with
  | init => exact ⟨[], rfl, List.Pairwise.nil⟩
  | create_step h name pw ty dep s s' _ hc ih =>
    exact storeOk_create h name pw ty dep s s' ih hc
  | login_step h no pw b s s' _ hlg ih =>
    obtain ⟨recs, hfile, hpw⟩ := ih
    exact ⟨recs, (login_file_unchanged h s no pw b s' hlg) ▸ hfile, hpw⟩
  | ledger_step h op s _ ih => exact storeOk_runOp h op s ih
  | close_step s _ ih => exact storeOk_close s ih

end Banking

namespace Banking

/-- Spec-side description of id allocation (for comparison with the code's
`generate_account_number`): one greater than the maximum id currently in the
store, or the base id 100001 when the store is empty. -/
def allocSpecId (s : BankState) : Nat :=
  if storeIds s = [] then 100001 else (storeIds s).foldr max 0 + 1

theorem storeOk_generate (s : BankState) (hs : StoreOk s) :
    generate_account_number s.accounts_file = some (allocSpecId s) := by
  obtain ⟨recs, hfile, hpw⟩ := hs
  have hids : storeIds s = recs.map (fun r => r.account_no) := by
    rw [storeIds, hfile, get_all_save]
  rw [hfile, generate_save]
  rcases hlast : recs.getLast? with _ | rlast
  · have hnil : recs = [] := List.getLast?_eq_none_iff.mp hlast
    subst hnil
    simp [lastThenInc, allocSpecId, hids]
  · have hne : recs ≠ [] := by
      intro hx
      rw [hx] at hlast
      simp at hlast
    have hidslast : (recs.map (fun r => r.account_no)).getLast? =
        some rlast.account_no := by
      rw [List.getLast?_map, hlast]
      rfl
    have hfold := foldr_max_getLast? _ hpw rlast.account_no hidslast
    have hidsne : storeIds s ≠ [] := by
      rw [hids]
      simpa using hne
    have h1 : lastThenInc recs = rlast.account_no + 1 := by
      simp [lastThenInc, hlast]
    have h2 : allocSpecId s = rlast.account_no + 1 := by
      rw [allocSpecId, if_neg hidsne, hids, hfold]
    rw [h1, h2]

/-- C5: in every reachable store state, `generate_account_number` returns
one greater than the maximum id currently in the store, or the base id
100001 when the store is empty (in reachable states the file's last record
always carries the maximum id, because ids are assigned in increasing file
order and closures preserve that order). -/
theorem C5_allocate_id (s : BankState) (hre : Reachable s) :
    generate_account_number s.accounts_file = some (allocSpecId s) :=
  storeOk_generate s (reachable_storeOk s hre)

/-- Witness for C5 on the reachable one-account store created from scratch. -/
theorem C5_allocate_id_witness :
    generate_account_number
      (⟨[some ⟨100001, "a", "p", 5, "S"⟩], [], none⟩ : BankState).accounts_file =
      some (allocSpecId ⟨[some ⟨100001, "a", "p", 5, "S"⟩], [], none⟩) :=
  C5_allocate_id _
    (Reachable.create_step idHash "a" "p" "S" 5 ⟨[], [], none⟩ _ Reachable.init rfl)

/-- C4 amended: ids are unique across the records *simultaneously present*
in the store — in every reachable state the stored ids are pairwise
distinct and a freshly allocated id is never already present — but not
across the lifetime of the store: closing the account with the largest id
makes the allocator hand out that id again (see the counterexample). -/
theorem C4_ids_unique_in_store (s : BankState) (m : Nat) (hre : Reachable s)
    (hm : generate_account_number s.accounts_file = some m) :
    (storeIds s).Nodup ∧ m ∉ storeIds s := by
  obtain ⟨recs, hfile, hpw⟩ := reachable_storeOk s hre
  have hids : storeIds s = recs.map (fun r => r.account_no) := by
    rw [storeIds, hfile, get_all_save]
  constructor
  · rw [hids]
    exact hpw.imp (fun hab => Nat.ne_of_lt hab)
  · rw [hfile, generate_save] at hm
    injection hm with hm
    rw [hids]
    intro hmem
    rcases hlast : recs.getLast? with _ | rlast
    · rw [List.getLast?_eq_none_iff.mp hlast] at hmem
      simp at hmem
    · have hidslast : (recs.map (fun r => r.account_no)).getLast? =
          some rlast.account_no := by
        rw [List.getLast?_map, hlast]
        rfl
      have hle := le_getLast?_pairwise _ hpw rlast.account_no hidslast m hmem
      have : lastThenInc recs = rlast.account_no + 1 := by
        simp [lastThenInc, hlast]
      omega

/-- Witness for the amended C4 on the reachable one-account store. -/
theorem C4_ids_unique_in_store_witness :
    (storeIds ⟨[some ⟨100001, "a", "p", 5, "S"⟩], [], none⟩).Nodup
    ∧ 100002 ∉ storeIds ⟨[some ⟨100001, "a", "p", 5, "S"⟩], [], none⟩ :=
  C4_ids_unique_in_store _ 100002
    (Reachable.create_step idHash "a" "p" "S" 5 ⟨[], [], none⟩ _ Reachable.init rfl)
    rfl

/-- C4 as stated is false: create two accounts (ids 100001, 100002), log in
to 100002 and close it; the next allocation returns 100002 again, an id
that had already been assigned to an earlier-created account. -/
theorem C4_id_reused_after_close :
    ((create_account idHash ⟨[], [], none⟩ "a" "p" "S" 5).bind (fun s1 =>
      create_account idHash s1 "b" "q" "S" 7)).map storeIds =
      some [100001, 100002]
    ∧ ((create_account idHash ⟨[], [], none⟩ "a" "p" "S" 5).bind (fun s1 =>
        (create_account idHash s1 "b" "q" "S" 7).bind (fun s2 =>
          (login idHash s2 100002 "q").map (fun r =>
            generate_account_number (close_account r.2).accounts_file)))) =
      some (some 100002) := by
  constructor
  · rfl
  · rfl

end Banking

namespace Banking

/-! ## C8: authentication -/

theorem login_scan_save (acc_no : Nat) (pwd : String) :
    ∀ recs : List AccountRec, login_scan acc_no pwd (save_accounts recs) =
      some (recs.find? (fun r => r.account_no == acc_no && r.password == pwd))
  | [] => rfl
  | r :: rest => by
    rw [save_accounts, List.map_cons, login_scan, List.find?_cons]
    by_cases h1 : r.account_no = acc_no ∧ r.password = pwd
    · rw [if_pos h1]
      have hb : (r.account_no == acc_no && r.password == pwd) = true := by
        simp [h1.1, h1.2]
      rw [hb]
    · rw [if_neg h1]
      have hb : (r.account_no == acc_no && r.password == pwd) = false := by
        by_cases h2 : r.account_no = acc_no
        · have h3 : r.password ≠ pwd := fun hp => h1 ⟨h2, hp⟩
          simp [h2, h3]
        · simp [h2]
      rw [hb]
      exact login_scan_save acc_no pwd rest

theorem find?_eq_some_of_unique {p : AccountRec → Bool} {r : AccountRec} :
    ∀ {l : List AccountRec}, r ∈ l → p r = true →
      (∀ x ∈ l, p x = true → x = r) → l.find? p = some r := by
  intro l
  induction l with
  | nil => intro hmem; simp at hmem
  | cons a t ih =>
    intro hmem hp huniq
    rw [List.find?_cons]
    by_cases ha : p a = true
    · rw [ha, huniq a (List.mem_cons_self a t) ha]
    · have hb : p a = false := by
        cases hpa : p a
        · rfl
        · exact absurd hpa ha
      rw [hb]
      rcases List.mem_cons.mp hmem with rfl | hmem2
      · exact absurd hp ha
      · exact ih hmem2 hp (fun x hx => huniq x (List.mem_cons_of_mem a hx))

/-- C8: with the digest treated as an injective opaque function,
authentication succeeds exactly for the (id, secret) pair whose digest is
stored: for a stored account, login with the correct id and any wrong
secret returns failure with the state unchanged — the session stays logged
out with no account loaded — while the exact creation secret loads that
record into the session. -/
theorem C8_login_exact_credentials (h : String → String) (st : BankState)
    (recs : List AccountRec) (r : AccountRec) (acc_no : Nat)
    (secret wrong : String)
    (hinj : Function.Injective h)
    (hfile : st.accounts_file = save_accounts recs)
    (hnd : (recs.map (fun x => x.account_no)).Nodup)
    (hmem : r ∈ recs) (hid : r.account_no = acc_no) (hpw : r.password = h secret)
    (hout : st.logged_in_account = none)
    (hwrong : wrong ≠ secret) :
    login h st acc_no wrong = some (false, st)
    ∧ st.logged_in_account = none
    ∧ login h st acc_no secret =
        some (true, { st with logged_in_account := some r }) := by
  have hfw : recs.find?
      (fun x => x.account_no == acc_no && x.password == h wrong) = none := by
    rcases hfind : recs.find?
        (fun x => x.account_no == acc_no && x.password == h wrong) with _ | x
    · exact hfind
    · exfalso
      have hx := List.find?_some hfind
      have hxmem := List.mem_of_find?_eq_some hfind
      simp only [Bool.and_eq_true, beq_iff_eq] at hx
      have hxr : x = r :=
        List.inj_on_of_nodup_map hnd hxmem hmem (by rw [hx.1, hid])
      rw [hxr] at hx
      have heq : h secret = h wrong := by rw [← hpw, hx.2]
      exact hwrong (hinj heq).symm
  refine ⟨?_, hout, ?_⟩
  · rw [login, hfile, login_scan_save, hfw]
    rfl
  · have hfs : recs.find?
        (fun x => x.account_no == acc_no && x.password == h secret) = some r := by
      apply find?_eq_some_of_unique hmem
      · simp [hid, hpw]
      · intro x hx hpx
        simp only [Bool.and_eq_true, beq_iff_eq] at hpx
        exact List.inj_on_of_nodup_map hnd hx hmem (by rw [hpx.1, hid])
    rw [login, hfile, login_scan_save, hfs]
    rfl

/-- Witness for C8: account 100001 with digest of "p"; "x" fails and leaves
the session logged out, "p" succeeds. -/
theorem C8_login_exact_credentials_witness :
    login idHash ⟨[some ⟨100001, "a", "p", 5, "S"⟩], [], none⟩ 100001 "x" =
      some (false, ⟨[some ⟨100001, "a", "p", 5, "S"⟩], [], none⟩)
    ∧ (⟨[some ⟨100001, "a", "p", 5, "S"⟩], [], none⟩ : BankState).logged_in_account = none
    ∧ login idHash ⟨[some ⟨100001, "a", "p", 5, "S"⟩], [], none⟩ 100001 "p" =
        some (true,
          { (⟨[some ⟨100001, "a", "p", 5, "S"⟩], [], none⟩ : BankState) with
            logged_in_account := some ⟨100001, "a", "p", 5, "S"⟩ }) :=
  C8_login_exact_credentials idHash
    ⟨[some ⟨100001, "a", "p", 5, "S"⟩], [], none⟩
    [⟨100001, "a", "p", 5, "S"⟩] ⟨100001, "a", "p", 5, "S"⟩ 100001 "p" "x"
    (fun a b hab => hab) rfl (by simp) (by simp) rfl rfl rfl (by decide)

end Banking

namespace Banking

/-! ## C10: self-transfer -/

theorem find?_creditFirst (t : Nat) (a : ℚ) :
    ∀ l : List AccountRec,
      (creditFirst t a l).find? (fun acc => acc.account_no == t) =
        (l.find? (fun acc => acc.account_no == t)).map
          (fun acc => { acc with balance := acc.balance + a })
  | [] => rfl
  | acc :: rest => by
    rw [creditFirst]
    by_cases hc : acc.account_no = t
    · rw [if_pos hc]
      simp only [List.find?_cons]
      have hb : (({ acc with balance := acc.balance + a } : AccountRec).account_no
          == t) = true := by simp [hc]
      rw [hb]
      rfl
    · rw [if_neg hc]
      simp only [List.find?_cons]
      have hb : (acc.account_no == t) = false := by simp [hc]
      rw [hb]
      exact find?_creditFirst t a rest

/-- C10: a self-transfer (target id equal to the logged-in account's id) is
not rejected: for every amount at most the session balance it succeeds,
appends exactly two transaction events, and leaves the *persisted* balance
at the pre-transfer balance plus the amount while the *session* balance
drops to the pre-transfer balance minus the amount. -/
theorem C10_self_transfer (st : BankState) (sess r : AccountRec) (a : ℚ)
    (hl : st.logged_in_account = some sess)
    (hfind : (get_all_accounts st.accounts_file).find?
      (fun acc => acc.account_no == sess.account_no) = some r)
    (hsync : r.balance = sess.balance)
    (hle : a ≤ sess.balance) :
    (st.transfer sess.account_no a).txn_log =
      st.txn_log ++
        [⟨sess.account_no, "Transfer" ++ " to " ++ toString sess.account_no, a⟩,
         ⟨sess.account_no, "Received" ++ " to " ++ toString sess.account_no, a⟩]
    ∧ storeBalance (st.transfer sess.account_no a) sess.account_no =
        some (sess.balance + a)
    ∧ (st.transfer sess.account_no a).logged_in_account =
        some { sess with balance := sess.balance - a } := by
  have hr : r.account_no = sess.account_no := by
    simpa using List.find?_some hfind
  have hnot : ¬ sess.balance < a := not_lt.mpr hle
  refine ⟨?_, ?_, ?_⟩
  · simp [BankState.transfer, hl, hfind, Account.transfer, if_neg hnot,
      log_transaction, hr]
  · simp only [BankState.transfer, hl, hfind, Account.transfer, if_neg hnot,
      storeBalance, get_all_save]
    rw [find?_creditFirst, hfind]
    simp [hsync]
  · simp [BankState.transfer, hl, hfind, Account.transfer, if_neg hnot]

/-- Witness for C10: one account 100001 with balance 100 transfers 30 to
itself; the store ends at 130 while the session ends at 70. -/
theorem C10_self_transfer_witness :
    (BankState.transfer
      ⟨[some ⟨100001, "alice", "d", 100, "Savings"⟩], [],
       some ⟨100001, "alice", "d", 100, "Savings"⟩⟩ 100001 30).txn_log =
      [] ++
        [⟨100001, "Transfer" ++ " to " ++ toString (100001 : Nat), 30⟩,
         ⟨100001, "Received" ++ " to " ++ toString (100001 : Nat), 30⟩]
    ∧ storeBalance (BankState.transfer
        ⟨[some ⟨100001, "alice", "d", 100, "Savings"⟩], [],
         some ⟨100001, "alice", "d", 100, "Savings"⟩⟩ 100001 30) 100001 =
        some (100 + 30)
    ∧ (BankState.transfer
        ⟨[some ⟨100001, "alice", "d", 100, "Savings"⟩], [],
         some ⟨100001, "alice", "d", 100, "Savings"⟩⟩ 100001 30).logged_in_account =
        some { (⟨100001, "alice", "d", 100, "Savings"⟩ : AccountRec) with
               balance := 100 - 30 } :=
  C10_self_transfer
    ⟨[some ⟨100001, "alice", "d", 100, "Savings"⟩], [],
     some ⟨100001, "alice", "d", 100, "Savings"⟩⟩
    ⟨100001, "alice", "d", 100, "Savings"⟩
    ⟨100001, "alice", "d", 100, "Savings"⟩ 30 rfl
    (by norm_num [get_all_accounts, List.filterMap_cons, List.find?_cons])
    rfl (by norm_num)

end Banking
